import Mathlib

/-!
Verification of the MnC-Alloc room-reservation core: a shallow embedding of
the booking creation routes (the admin route's `POST` in
`src/app/api/admin/bookings` and the user route's `POST` in
`src/app/api/bookings`), the conflict predicate `checkConflicts`, the
status-update (`PATCH`) and deletion (`DELETE`) operations, together with
theorems about interval overlap, recurrence expansion, validation and the
no-double-booking invariant.

Embedding conventions:
* Calendar dates are encoded as natural day indices; the weekday of day `d`
  is `d % 7` with `0 = sunday, 1 = monday, …, 6 = saturday`, matching the
  `['sunday', …, 'saturday'][date.getDay()]` lookup in the source.
* A `Date` value (a datetime) is encoded as an absolute minute count: day
  index times 1440 plus minutes past midnight.  Thus `getHours()` is
  `t % 1440 / 60`, `getMinutes()` is `t % 1440 % 60`, the `<`/`<=`
  comparisons of datetimes (and of their ISO strings) are `Nat` order, and
  `new Date(d).setHours(t.getHours(), t.getMinutes(), 0, 0)` is
  `rebase d t = d * 1440 + t % 1440`.
* Stored `Booking` rows keep their `startTime`/`endTime` exactly as the
  routes write them: the admin route writes datetimes rebased onto each
  occurrence's own date, while the user route's repeat branches spread
  `{...baseBookingData, date}` and therefore store the *original request
  datetimes* for every repeated day — only `date` advances.  The
  `checkConflicts` query compares these stored raw datetimes against the
  probe datetimes rebased onto the queried date.
* The Mongo `bookings` collection is a `List Booking` in insertion order;
  `findOne` with a predicate is `List.find?`, `insertMany`/`create` append,
  `updateOne` maps over the list, `deleteOne` is `List.eraseP`.
* The routes' HTTP error responses become constructors of `UserErr` /
  `AdminErr`; a constructor carries exactly the data that the source
  interpolates into the corresponding message string.
  `UserErr.notificationCrash` is the 500 produced when the user route's
  pending-notification block evaluates `bookings[0]._id` on an empty
  created list while at least one admin user exists.
* Session, notification and room-lookup collaborators are out of scope;
  the caller's role is the `isAdmin : Bool` argument, the room-existence
  lookup result is the `roomExists : Bool` argument, and whether
  `User.find({role: 'admin'})` returns any row is the `hasAdmins : Bool`
  argument.
-/

/-- Booking lifecycle status (`status` field in the `bookings` collection). -/
inductive Status where
  | pending
  | approved
  | rejected
deriving Repr, DecidableEq

/-- A persisted reservation record, as stored by the booking routes.
`date` is a day index; `startTime`/`endTime` are absolute datetimes,
stored exactly as the creating route wrote them. -/
structure Booking where
  id : Nat
  room : Nat
  date : Nat
  startTime : Nat
  endTime : Nat
  status : Status
deriving Repr, DecidableEq

/-- One entry of a route's to-create list: a day index plus the
`startTime`/`endTime` datetimes the route carries for that day (the raw
request datetimes on the user route, day-rebased datetimes on the admin
route). -/
structure Occ where
  date : Nat
  startTime : Nat
  endTime : Nat
deriving Repr, DecidableEq

deriving instance DecidableEq for Except

/-- `new Date(d).setHours(t.getHours(), t.getMinutes(), 0, 0)`: the datetime
on day `d` at `t`'s time of day. -/
def rebase (d t : Nat) : Nat := d * 1440 + t % 1440

/-- The `$or` clauses of `checkConflicts` (identical in the admin route, the
user route and the availability route): the existing booking's stored
datetimes against the probe datetimes `[newStart, newEnd)`, as two
disjuncts. -/
def conflictClauses (existingStart existingEnd newStart newEnd : Nat) : Bool :=
  (existingStart < newEnd && existingEnd > newStart) ||
    (existingStart ≥ newStart && existingEnd ≤ newEnd)

/-- The spec's single half-open overlap test
`a.startTime < b.endTime && b.startTime < a.endTime` (same-date intervals). -/
def specOverlap (aStart aEnd bStart bEnd : Nat) : Bool :=
  aStart < bEnd && bStart < aEnd

/-- The full `checkConflicts` query predicate of the booking routes: same
room, same date, status not `rejected`, and the `$or` of the two interval
clauses over the stored datetimes and the probe datetimes. -/
def conflictsWith (roomId qdate startDT endDT : Nat) (b : Booking) : Bool :=
  b.room == roomId && b.date == qdate && !(b.status == Status.rejected) &&
    conflictClauses b.startTime b.endTime startDT endDT

/-- The conflict-scan loop shared by both creation routes: for each
candidate occurrence, `checkConflicts` rebases the carried datetimes onto
the occurrence's date and runs the `findOne`; return the first blocking
booking found, if any. -/
def firstConflict (roomId : Nat) (store : List Booking) : List Occ → Option Booking
  | [] => none
  | o :: os =>
    match store.find? (conflictsWith roomId o.date
        (rebase o.date o.startTime) (rebase o.date o.endTime)) with
    | some b => some b
    | none => firstConflict roomId store os

/-- The date-iteration loop `while (currentDate <= endDate) { …; currentDate
= addDays/addWeeks(currentDate, …) }` of the user route: all days `d, d +
(k+1), d + 2*(k+1), …` up to and including `u`.  The step is `k + 1` so that
it is always positive. -/
def stepDates (k d u : Nat) : List Nat :=
  if d ≤ u then d :: stepDates k (d + k + 1) u else []
termination_by u + 1 - d
decreasing_by omega

/-- Daily iteration (`addDays(currentDate, 1)`): step one day. -/
def dailyDates (d u : Nat) : List Nat := stepDates 0 d u

/-- Weekly iteration (`addWeeks(currentDate, 1)`): step seven days. -/
def weeklyDates (d u : Nat) : List Nat := stepDates 6 d u

/-- The admin route's strict loop `while (isBefore(currentDate,
endRepeatDate)) { …; currentDate = addDays(currentDate, 1) }`: all days from
`x` up to but excluding `u`. -/
def beforeDates (x u : Nat) : List Nat :=
  if x < u then x :: beforeDates (x + 1) u else []
termination_by u - x
decreasing_by omega

/-- Recurrence choice on the user route (`repeatType` plus `repeatEndDate`). -/
inductive URepeat where
  | norepeat
  | daily (untilDate : Nat)
  | weekly (untilDate : Nat)
deriving Repr, DecidableEq

/-- A user-route booking request (`POST /api/bookings` body, after the
missing-required-fields check): a day index and the client-sent
`startTime`/`endTime` datetimes. -/
structure UserRequest where
  room : Nat
  date : Nat
  startTime : Nat
  endTime : Nat
  repeatType : URepeat
deriving Repr, DecidableEq

/-- Error responses of the user route.  Each constructor carries exactly the
data interpolated into the source's message string; `notificationCrash` is
the 500 from `bookings[0]._id` on an empty created list. -/
inductive UserErr where
  | timeWindow
  | endNotAfterStart
  | conflictGeneric
  | conflictOnDate (date : Nat)
  | notificationCrash
deriving Repr, DecidableEq

/-- The user route's 8:00–21:00 gate, exactly as written:
`startHour < 8 || (endHour > 21 || (endHour === 21 && endMinute > 0))`,
where hour and minute are the `getHours()`/`getMinutes()` components of the
request datetimes. -/
def userTimeBad (s e : Nat) : Bool :=
  s % 1440 / 60 < 8 || (e % 1440 / 60 > 21 || (e % 1440 / 60 == 21 && e % 1440 % 60 > 0))

/-- `status` assigned by the user route: auto-approved for admins. -/
def userStatus (isAdmin : Bool) : Status :=
  if isAdmin then Status.approved else Status.pending

/-- The creation loop: one `Booking.create`/insert per list entry, storing
the entry's date and datetimes exactly as carried, with ids assigned
consecutively from `freshId` (standing for the database-generated ids). -/
def createFromOccs (roomId : Nat) (st : Status) (freshId : Nat) : List Occ → List Booking
  | [] => []
  | o :: os =>
    { id := freshId, room := roomId, date := o.date, startTime := o.startTime,
      endTime := o.endTime, status := st } :: createFromOccs roomId st (freshId + 1) os

/-- The user route's pending-notification block, which runs after creation:
for a `pending` booking it loops over the admin users and builds each
notification from `bookings[0]._id`; with an empty created list and at
least one admin user that dereference throws, and the route answers 500. -/
def finalizeUser (st : Status) (hasAdmins : Bool) (bs : List Booking) :
    Except UserErr (List Booking) :=
  if st == Status.pending && bs.isEmpty && hasAdmins then
    Except.error UserErr.notificationCrash
  else Except.ok bs

/-- The occurrences the user route iterates over for each repeat type: the
single request date for `none`, every day through `repeatEndDate` for
`daily`, every seventh day for `weekly`.  Every occurrence carries the
*raw request datetimes* — the repeat branches spread `baseBookingData`
unchanged, so only `date` varies. -/
def userOccs (req : UserRequest) : List Occ :=
  match req.repeatType with
  | URepeat.norepeat => [⟨req.date, req.startTime, req.endTime⟩]
  | URepeat.daily u => (dailyDates req.date u).map fun d => ⟨d, req.startTime, req.endTime⟩
  | URepeat.weekly u => (weeklyDates req.date u).map fun d => ⟨d, req.startTime, req.endTime⟩

/-- `POST /api/bookings` (user route): 8:00–21:00 gate, `endTime <=
startTime` gate, then per repeat type a conflict scan over every occurrence
followed — only if the whole scan is clean — by creation of every
occurrence (each stored row keeping the raw request datetimes) and the
pending-notification block.  Returns the list of created bookings; the new
store is the old store with them appended. -/
def scheduleUser (req : UserRequest) (isAdmin hasAdmins : Bool) (freshId : Nat)
    (store : List Booking) : Except UserErr (List Booking) :=
  if userTimeBad req.startTime req.endTime then Except.error UserErr.timeWindow
  else if req.endTime ≤ req.startTime then Except.error UserErr.endNotAfterStart
  else
    match req.repeatType with
    | URepeat.norepeat =>
      match store.find? (conflictsWith req.room req.date
          (rebase req.date req.startTime) (rebase req.date req.endTime)) with
      | some _ => Except.error UserErr.conflictGeneric
      | none =>
        finalizeUser (userStatus isAdmin) hasAdmins
          (createFromOccs req.room (userStatus isAdmin) freshId
            [⟨req.date, req.startTime, req.endTime⟩])
    | URepeat.daily u =>
      match firstConflict req.room store
          ((dailyDates req.date u).map fun d => ⟨d, req.startTime, req.endTime⟩) with
      | some b => Except.error (UserErr.conflictOnDate b.date)
      | none =>
        finalizeUser (userStatus isAdmin) hasAdmins
          (createFromOccs req.room (userStatus isAdmin) freshId
            ((dailyDates req.date u).map fun d => ⟨d, req.startTime, req.endTime⟩))
    | URepeat.weekly u =>
      match firstConflict req.room store
          ((weeklyDates req.date u).map fun d => ⟨d, req.startTime, req.endTime⟩) with
      | some b => Except.error (UserErr.conflictOnDate b.date)
      | none =>
        finalizeUser (userStatus isAdmin) hasAdmins
          (createFromOccs req.room (userStatus isAdmin) freshId
            ((weeklyDates req.date u).map fun d => ⟨d, req.startTime, req.endTime⟩))

/-- The reservation store after a user-route call: unchanged on error,
extended by the created batch on success. -/
def applyUser (req : UserRequest) (isAdmin hasAdmins : Bool) (freshId : Nat)
    (store : List Booking) : List Booking :=
  match scheduleUser req isAdmin hasAdmins freshId store with
  | Except.ok bs => store ++ bs
  | Except.error _ => store

/-- One per-weekday window of the admin route's `weeklySchedule`; `none`
start/end stands for a missing (or empty, hence falsy) time string, `some`
for a datetime. -/
structure DayWindow where
  startTime : Option Nat
  endTime : Option Nat
  enabled : Bool
deriving Repr, DecidableEq

/-- Recurrence choice on the admin route. -/
inductive ARepeat where
  | norepeat
  | daily
  | weekly
deriving Repr, DecidableEq

/-- An admin-route booking request (`POST /api/admin/bookings` body).  The
`weeklySchedule` object is an association list from weekday index (`0 =
sunday`) to window, in object-entry order. -/
structure AdminRequest where
  room : Nat
  hasTitle : Bool
  date : Nat
  startTime : Option Nat
  endTime : Option Nat
  status : Status
  repeatType : ARepeat
  repeatEndDate : Option Nat
  weeklySchedule : Option (List (Nat × DayWindow))
deriving Repr, DecidableEq

/-- Error responses of the admin route.  `conflictDetail` carries the
blocking booking's date, start and end times, which the source formats into
`Booking conflict on <date> between <start> and <end>`. -/
inductive AdminErr where
  | missingFields
  | missingTimes
  | endNotAfterStart
  | invalidWindowFor (day : Nat)
  | noEnabledDay
  | missingSchedule
  | roomNotFound
  | invalidWindowHour
  | invalidWindowDaily
  | conflictDetail (date startTime endTime : Nat)
deriving Repr, DecidableEq

/-- The admin route's per-weekday check `endHour <= startHour` on a window:
`getHours()` of a missing time is `NaN` and every `NaN` comparison is false,
so the check can only fire when both times are present. -/
def windowHourViolation (w : DayWindow) : Bool :=
  match w.startTime, w.endTime with
  | some s, some e => e % 1440 / 60 ≤ s % 1440 / 60
  | _, _ => false

/-- The admin route's weekly-schedule validation loop: return the weekday of
the first *enabled* entry whose window fails the hour check. -/
def firstInvalidEnabled : List (Nat × DayWindow) → Option Nat
  | [] => none
  | (day, w) :: rest =>
    if w.enabled && windowHourViolation w then some day else firstInvalidEnabled rest

/-- The admin route's repeat-type-dependent validation block (lines
184–235): non-weekly requests need both times with `endTime > startTime`
(full datetime comparison); weekly requests need a schedule with no enabled
window failing the hour check and at least one enabled day. -/
def adminValidate (req : AdminRequest) : Option AdminErr :=
  if req.repeatType ≠ ARepeat.weekly then
    match req.startTime, req.endTime with
    | some s, some e => if e ≤ s then some AdminErr.endNotAfterStart else none
    | _, _ => some AdminErr.missingTimes
  else
    match req.weeklySchedule with
    | none => some AdminErr.missingSchedule
    | some sched =>
      match firstInvalidEnabled sched with
      | some day => some (AdminErr.invalidWindowFor day)
      | none =>
        if sched.any (fun p => p.2.enabled) then none else some AdminErr.noEnabledDay

/-- The admin route's second validation (lines 252–266): whenever both
top-level times are present, reject if `endHour <= startHour` — an
hour-granularity comparison. -/
def adminHourCheck (req : AdminRequest) : Option AdminErr :=
  match req.startTime, req.endTime with
  | some s, some e =>
    if e % 1440 / 60 ≤ s % 1440 / 60 then some AdminErr.invalidWindowHour else none
  | _, _ => none

/-- The redundant hour re-check inside the daily-repeat branch (lines
344–353). -/
def adminDailyCheck (req : AdminRequest) : Option AdminErr :=
  match req.repeatEndDate with
  | some _ =>
    if req.repeatType = ARepeat.daily then
      match req.startTime, req.endTime with
      | some s, some e =>
        if e % 1440 / 60 ≤ s % 1440 / 60 then some AdminErr.invalidWindowDaily else none
      | _, _ => none
    else none
  | none => none

/-- The weekly-repeat loop body: emit an occurrence for a day exactly when
its weekday has a schedule entry that is enabled with both time strings
present (`daySchedule && daySchedule.enabled && daySchedule.startTime &&
daySchedule.endTime`), carrying that weekday's window rebased onto the
day (`currentDate.setHours(startTimeDate.getHours(), …)`). -/
def weeklyOcc (sched : List (Nat × DayWindow)) (day : Nat) : Option Occ :=
  match sched.lookup (day % 7) with
  | some w =>
    if w.enabled then
      match w.startTime, w.endTime with
      | some s, some e => some ⟨day, rebase day s, rebase day e⟩
      | _, _ => none
    else none
  | none => none

/-- The `bookingsToCreate` array of the admin route: the initial booking at
the request date whenever both top-level times are present, then — when a
repeat end date is given — the daily repeats over the days *strictly after*
the request date and *strictly before* the end date, or the weekly-schedule
occurrences over the days from the request date *strictly before* the end
date.  Every entry carries datetimes rebased onto its own date
(`bookingDateObj.setHours(…)`). -/
def adminBookingsToCreate (req : AdminRequest) : List Occ :=
  (match req.startTime, req.endTime with
   | some s, some e => [⟨req.date, rebase req.date s, rebase req.date e⟩]
   | _, _ => []) ++
  (match req.repeatEndDate with
   | some u =>
     if req.repeatType = ARepeat.daily then
       match req.startTime, req.endTime with
       | some s, some e => (beforeDates (req.date + 1) u).map fun d => ⟨d, rebase d s, rebase d e⟩
       | _, _ => []
     else if req.repeatType = ARepeat.weekly then
       match req.weeklySchedule with
       | some sched => (beforeDates req.date u).filterMap (weeklyOcc sched)
       | none => []
     else []
   | none => [])

/-- `POST /api/admin/bookings` (admin route): required-fields check,
repeat-type validation, room lookup, hour-granularity time check, building
of `bookingsToCreate`, a conflict scan over all of them, and — only if the
scan is clean — insertion of the whole batch. -/
def adminSchedule (req : AdminRequest) (roomExists : Bool) (freshId : Nat)
    (store : List Booking) : Except AdminErr (List Booking) :=
  if !req.hasTitle then Except.error AdminErr.missingFields
  else
    match adminValidate req with
    | some er => Except.error er
    | none =>
      if !roomExists then Except.error AdminErr.roomNotFound
      else
        match adminHourCheck req with
        | some er => Except.error er
        | none =>
          match adminDailyCheck req with
          | some er => Except.error er
          | none =>
            match firstConflict req.room store (adminBookingsToCreate req) with
            | some b => Except.error (AdminErr.conflictDetail b.date b.startTime b.endTime)
            | none =>
              Except.ok (createFromOccs req.room req.status freshId
                (adminBookingsToCreate req))

/-- The reservation store after an admin-route call. -/
def applyAdmin (req : AdminRequest) (roomExists : Bool) (freshId : Nat)
    (store : List Booking) : List Booking :=
  match adminSchedule req roomExists freshId store with
  | Except.ok bs => store ++ bs
  | Except.error _ => store

/-- `PATCH /api/admin/bookings`: look the booking up by id and overwrite its
`status` with the requested value (no transition guard, no conflict
re-check); `none` models the 404 when the id is absent. -/
def updateStatus (id : Nat) (st : Status) (store : List Booking) :
    Option (List Booking) :=
  if store.any (fun b => b.id == id) then
    some (store.map fun b => if b.id == id then { b with status := st } else b)
  else none

/-- `DELETE /api/admin/bookings`: remove the booking with the given id. -/
def deleteBooking (id : Nat) (store : List Booking) : List Booking :=
  store.eraseP fun b => b.id == id

/-- Half-open overlap of two stored reservations, per the spec's §3 rule: a
reservation occupies its `date` for the clock window given by the time of
day of its stored start and end datetimes (what `format(_, 'h:mm a')`
displays); two reservations overlap when their dates coincide and those
clock windows cross. -/
def overlapB (a b : Booking) : Bool :=
  a.date == b.date && a.startTime % 1440 < b.endTime % 1440 &&
    b.startTime % 1440 < a.endTime % 1440

/-- Two bookings are compatible when they cannot double-book: if they are on
the same room and neither is rejected, their intervals do not overlap. -/
def compat (a b : Booking) : Prop :=
  a.room = b.room → a.status ≠ Status.rejected → b.status ≠ Status.rejected →
    overlapB a b = false

instance (a b : Booking) : Decidable (compat a b) := by
  unfold compat; infer_instance

/-- The no-double-booking invariant of the reservation store: for a fixed
room and date, no two non-rejected reservations overlap. -/
def invariant (store : List Booking) : Prop :=
  store.Pairwise compat

instance (store : List Booking) : Decidable (invariant store) := by
  unfold invariant; infer_instance

/-- A booking blocks a candidate occurrence on a given room: same room, not
rejected, same date, and the clock windows overlap in the half-open sense. -/
def blocks (roomId : Nat) (o : Occ) (b : Booking) : Prop :=
  b.room = roomId ∧ b.status ≠ Status.rejected ∧ b.date = o.date ∧
    b.startTime % 1440 < o.endTime % 1440 ∧ o.startTime % 1440 < b.endTime % 1440

instance (roomId : Nat) (o : Occ) (b : Booking) : Decidable (blocks roomId o b) := by
  unfold blocks; infer_instance

/-- A stored row whose datetimes lie on its own `date` — true of every
admin-created row and of single-occurrence rows whose request datetimes
were on the booking date, false of the user route's repeat rows beyond the
first day. -/
def datetimesOnDate (b : Booking) : Bool :=
  b.startTime / 1440 == b.date && b.endTime / 1440 == b.date

/-- User-route errors that are conflict rejections (HTTP 409). -/
def isConflictErr : UserErr → Bool
  | UserErr.conflictGeneric => true
  | UserErr.conflictOnDate _ => true
  | _ => false

/-- Admin-route errors that are conflict rejections (HTTP 409). -/
def isAdminConflict : AdminErr → Bool
  | AdminErr.conflictDetail _ _ _ => true
  | _ => false

/-- Whether a user-route conflict message names the blocking date: only the
recurring branches interpolate `conflict.date` into their message. -/
def userErrNamesDate : UserErr → Bool
  | UserErr.conflictOnDate _ => true
  | _ => false

/-- Whether a user-route conflict message names the blocking time range: no
user-route message interpolates any time value. -/
def userErrNamesTimes : UserErr → Bool
  | _ => false

/-- The states of the reservation store reachable from the empty store via
the mutating routes: user creation, admin creation, status update,
deletion. -/
inductive Reachable : List Booking → Prop where
  | empty : Reachable []
  | user (req : UserRequest) (isAdmin hasAdmins : Bool) (freshId : Nat)
      (store bs : List Booking) :
      Reachable store → scheduleUser req isAdmin hasAdmins freshId store = Except.ok bs →
      Reachable (store ++ bs)
  | admin (req : AdminRequest) (roomExists : Bool) (freshId : Nat)
      (store bs : List Booking) :
      Reachable store → adminSchedule req roomExists freshId store = Except.ok bs →
      Reachable (store ++ bs)
  | update (id : Nat) (st : Status) (store store2 : List Booking) :
      Reachable store → updateStatus id st store = some store2 → Reachable store2
  | del (id : Nat) (store : List Booking) :
      Reachable store → Reachable (deleteBooking id store)

theorem stepDates_eq_nil (k d u : Nat) (h : ¬ d ≤ u) : stepDates k d u = [] := by
  rw [stepDates]; simp [h]

theorem stepDates_eq_cons (k d u : Nat) (h : d ≤ u) :
    stepDates k d u = d :: stepDates k (d + k + 1) u := by
  rw [stepDates]; simp [h]

theorem dailyDates_eq_range' (d u : Nat) : dailyDates d u = List.range' d (u + 1 - d) := by
  show stepDates 0 d u = _
  by_cases h : d ≤ u
  · rw [stepDates_eq_cons 0 d u h]
    have h2 : u + 1 - d = (u + 1 - (d + 1)) + 1 := by omega
    rw [h2, List.range'_succ]
    have := dailyDates_eq_range' (d + 1) u
    simpa [dailyDates] using this
  · rw [stepDates_eq_nil 0 d u h]
    have h2 : u + 1 - d = 0 := by omega
    simp [h2]
termination_by u + 1 - d
decreasing_by omega

theorem beforeDates_eq_range' (x u : Nat) : beforeDates x u = List.range' x (u - x) := by
  by_cases h : x < u
  · rw [beforeDates]
    have h2 : u - x = (u - (x + 1)) + 1 := by omega
    rw [if_pos h, h2, List.range'_succ]
    have := beforeDates_eq_range' (x + 1) u
    simp [this]
  · rw [beforeDates]
    have h2 : u - x = 0 := by omega
    simp [h, h2]
termination_by u - x
decreasing_by omega

theorem firstConflict_eq_none_iff (roomId : Nat) (store : List Booking)
    (occs : List Occ) :
    firstConflict roomId store occs = none ↔
      ∀ o ∈ occs, ∀ b ∈ store,
        conflictsWith roomId o.date (rebase o.date o.startTime)
          (rebase o.date o.endTime) b = false := by
  induction occs with
  | nil => simp [firstConflict]
  | cons o os ih =>
    simp only [firstConflict]
    cases hf : store.find? (conflictsWith roomId o.date
        (rebase o.date o.startTime) (rebase o.date o.endTime)) with
    | some b =>
      simp only [reduceCtorEq, false_iff]
      intro h
      have hb := List.find?_some hf
      have hmem := List.mem_of_find?_eq_some hf
      have := h o (List.mem_cons_self o os) b hmem
      rw [this] at hb
      cases hb
    | none =>
      rw [List.find?_eq_none] at hf
      simp only [ih, List.mem_cons]
      constructor
      · intro h o' ho' b hb
        rcases ho' with rfl | ho'
        · have := hf b hb
          simpa using this
        · exact h o' ho' b hb
      · intro h o' ho' b hb
        exact h o' (Or.inr ho') b hb

theorem firstConflict_some_mem (roomId : Nat) (store : List Booking)
    (occs : List Occ) (b : Booking)
    (h : firstConflict roomId store occs = some b) : b ∈ store := by
  induction occs with
  | nil => simp [firstConflict] at h
  | cons o os ih =>
    simp only [firstConflict] at h
    cases hf : store.find? (conflictsWith roomId o.date
        (rebase o.date o.startTime) (rebase o.date o.endTime)) with
    | some b' =>
      rw [hf] at h
      cases h
      exact List.mem_of_find?_eq_some hf
    | none =>
      rw [hf] at h
      exact ih h

theorem blocks_conflictsWith (roomId : Nat) (o : Occ) (b : Booking)
    (hc : datetimesOnDate b = true) (h : blocks roomId o b) :
    conflictsWith roomId o.date (rebase o.date o.startTime)
      (rebase o.date o.endTime) b = true := by
  obtain ⟨h1, h2, h3, h4, h5⟩ := h
  simp only [datetimesOnDate, Bool.and_eq_true, beq_iff_eq] at hc
  simp only [conflictsWith, conflictClauses, rebase, Bool.and_eq_true, Bool.or_eq_true,
    beq_iff_eq, Bool.not_eq_true', beq_eq_false_iff_ne, decide_eq_true_eq]
  refine ⟨⟨⟨h1, h3⟩, h2⟩, Or.inl ⟨?_, ?_⟩⟩
  · omega
  · omega

theorem firstConflict_isSome_of_blocks (roomId : Nat) (store : List Booking)
    (occs : List Occ) (o : Occ) (b : Booking)
    (ho : o ∈ occs) (hb : b ∈ store) (hc : datetimesOnDate b = true)
    (hblk : blocks roomId o b) :
    firstConflict roomId store occs ≠ none := by
  intro hnone
  have := (firstConflict_eq_none_iff roomId store occs).mp hnone o ho b hb
  rw [blocks_conflictsWith roomId o b hc hblk] at this
  cases this

theorem mem_createFromOccs (roomId : Nat) (st : Status) (freshId : Nat)
    (occs : List Occ) (b : Booking)
    (h : b ∈ createFromOccs roomId st freshId occs) :
    ∃ o ∈ occs, b.room = roomId ∧ b.status = st ∧ b.date = o.date ∧
      b.startTime = o.startTime ∧ b.endTime = o.endTime := by
  induction occs generalizing freshId with
  | nil => simp [createFromOccs] at h
  | cons o os ih =>
    simp only [createFromOccs, List.mem_cons] at h
    rcases h with rfl | h
    · exact ⟨o, List.mem_cons_self o os, rfl, rfl, rfl, rfl, rfl⟩
    · obtain ⟨o', ho', hrest⟩ := ih (freshId + 1) h
      exact ⟨o', List.mem_cons_of_mem o ho', hrest⟩

theorem firstConflict_singleton (roomId : Nat) (store : List Booking) (o : Occ) :
    firstConflict roomId store [o] =
      store.find? (conflictsWith roomId o.date
        (rebase o.date o.startTime) (rebase o.date o.endTime)) := by
  simp only [firstConflict]
  cases store.find? (conflictsWith roomId o.date
      (rebase o.date o.startTime) (rebase o.date o.endTime)) <;> rfl

theorem firstConflict_nil_store (roomId : Nat) (occs : List Occ) :
    firstConflict roomId [] occs = none := by
  induction occs with
  | nil => rfl
  | cons o os ih => simp [firstConflict, ih]

theorem finalizeUser_ok (st : Status) (hasAdmins : Bool) (cs bs : List Booking)
    (h : finalizeUser st hasAdmins cs = Except.ok bs) : bs = cs := by
  unfold finalizeUser at h
  split at h
  · cases h
  · injection h with h
    exact h.symm

theorem finalizeUser_error (st : Status) (hasAdmins : Bool) (cs : List Booking)
    (er : UserErr) (h : finalizeUser st hasAdmins cs = Except.error er) :
    er = UserErr.notificationCrash := by
  unfold finalizeUser at h
  split at h
  · injection h with h
    exact h.symm
  · cases h

theorem finalizeUser_cons (st : Status) (hasAdmins : Bool) (b : Booking)
    (bs : List Booking) : finalizeUser st hasAdmins (b :: bs) = Except.ok (b :: bs) := by
  simp [finalizeUser]

theorem finalizeUser_approved (hasAdmins : Bool) (bs : List Booking) :
    finalizeUser Status.approved hasAdmins bs = Except.ok bs := by
  simp [finalizeUser]

theorem userOccs_times (req : UserRequest) (o : Occ) (ho : o ∈ userOccs req) :
    o.startTime = req.startTime ∧ o.endTime = req.endTime := by
  unfold userOccs at ho
  cases hrep : req.repeatType <;> rw [hrep] at ho
  case norepeat =>
    rcases List.mem_singleton.mp ho with rfl
    exact ⟨rfl, rfl⟩
  case daily u =>
    obtain ⟨d, _, rfl⟩ := List.mem_map.mp ho
    exact ⟨rfl, rfl⟩
  case weekly u =>
    obtain ⟨d, _, rfl⟩ := List.mem_map.mp ho
    exact ⟨rfl, rfl⟩

theorem scheduleUser_ok (req : UserRequest) (isAdmin hasAdmins : Bool) (freshId : Nat)
    (store bs : List Booking)
    (h : scheduleUser req isAdmin hasAdmins freshId store = Except.ok bs) :
    userTimeBad req.startTime req.endTime = false ∧
    req.startTime < req.endTime ∧
    firstConflict req.room store (userOccs req) = none ∧
    bs = createFromOccs req.room (userStatus isAdmin) freshId (userOccs req) := by
  unfold scheduleUser at h
  split at h
  · simp at h
  · split at h
    · simp at h
    · rename_i hw hse
      rw [Bool.not_eq_true] at hw
      refine ⟨hw, by omega, ?_⟩
      split at h
      · rename_i hrep
        split at h
        · simp at h
        · rename_i hf
          simp only [userOccs, hrep, firstConflict_singleton]
          exact ⟨hf, finalizeUser_ok _ _ _ _ h⟩
      · rename_i u hrep
        split at h
        · simp at h
        · rename_i hf
          simp only [userOccs, hrep]
          exact ⟨hf, finalizeUser_ok _ _ _ _ h⟩
      · rename_i u hrep
        split at h
        · simp at h
        · rename_i hf
          simp only [userOccs, hrep]
          exact ⟨hf, finalizeUser_ok _ _ _ _ h⟩

theorem map_date_mkOcc (l : List Nat) (f g : Nat → Nat) :
    l.map (Occ.date ∘ fun d => (⟨d, f d, g d⟩ : Occ)) = l := by
  induction l with
  | nil => rfl
  | cons x xs ih => simp only [List.map_cons, Function.comp_apply, ih]

/-- C3: the implemented two-clause conflict disjunction is equivalent, for
same-date intervals with `start < end`, to the single half-open overlap test
`a.startTime < b.endTime && b.startTime < a.endTime`; in particular two
intervals that merely touch at an endpoint never conflict. -/
theorem conflictClauses_equiv_halfOpen (es ee ns ne : Nat)
    (hex : es < ee) (hnw : ns < ne) :
    conflictClauses es ee ns ne = specOverlap es ee ns ne ∧
      (ee = ns ∨ ne = es → conflictClauses es ee ns ne = false) := by
  have h1 : conflictClauses es ee ns ne = specOverlap es ee ns ne := by
    rw [Bool.eq_iff_iff]
    simp only [conflictClauses, specOverlap, Bool.and_eq_true, Bool.or_eq_true,
      decide_eq_true_eq]
    omega
  refine ⟨h1, fun hto => ?_⟩
  rw [h1]
  simp only [specOverlap, Bool.and_eq_false_iff, decide_eq_false_iff_not]
  omega

theorem conflictClauses_equiv_halfOpen_witness :
    ((540 : Nat) < 630 ∧ (600 : Nat) < 660) ∧
      (conflictClauses 540 630 600 660 = specOverlap 540 630 600 660 ∧
        (630 = 600 ∨ 660 = 540 → conflictClauses 540 630 600 660 = false)) :=
  ⟨⟨by decide, by decide⟩,
    conflictClauses_equiv_halfOpen 540 630 600 660 (by decide) (by decide)⟩

/-- C10: on the user booking path, a request whose start time of day is
before 08:00 (minute 480) or whose end time of day is after 21:00 (minute
1260) fails with the time-window validation error before any conflict check
or write; consequently every booking the path creates has its clock window
inside 8:00–21:00. -/
theorem user_time_window_enforced :
    (∀ (req : UserRequest) (isAdmin hasAdmins : Bool) (freshId : Nat)
        (store : List Booking),
        req.startTime % 1440 < 480 ∨ 1260 < req.endTime % 1440 →
        scheduleUser req isAdmin hasAdmins freshId store =
          Except.error UserErr.timeWindow) ∧
    (∀ (req : UserRequest) (isAdmin hasAdmins : Bool) (freshId : Nat)
        (store bs : List Booking),
        scheduleUser req isAdmin hasAdmins freshId store = Except.ok bs →
        ∀ b ∈ bs, 480 ≤ b.startTime % 1440 ∧ b.endTime % 1440 ≤ 1260) := by
  constructor
  · intro req isAdmin hasAdmins freshId store hout
    have hbad : userTimeBad req.startTime req.endTime = true := by
      simp only [userTimeBad, Bool.or_eq_true, Bool.and_eq_true, decide_eq_true_eq,
        beq_iff_eq]
      omega
    unfold scheduleUser
    rw [hbad]
    rfl
  · intro req isAdmin hasAdmins freshId store bs h b hb
    obtain ⟨hw, _, _, rfl⟩ := scheduleUser_ok req isAdmin hasAdmins freshId store bs h
    obtain ⟨o, ho, _, _, _, hbs, hbe⟩ :=
      mem_createFromOccs req.room (userStatus isAdmin) freshId (userOccs req) b hb
    obtain ⟨hos, hoe⟩ := userOccs_times req o ho
    have hwin : ¬ (req.startTime % 1440 / 60 < 8 ∨ req.endTime % 1440 / 60 > 21 ∨
        (req.endTime % 1440 / 60 = 21 ∧ req.endTime % 1440 % 60 > 0)) := by
      intro hcon
      have : userTimeBad req.startTime req.endTime = true := by
        simp only [userTimeBad, Bool.or_eq_true, Bool.and_eq_true, decide_eq_true_eq,
          beq_iff_eq]
        omega
      rw [hw] at this
      cases this
    rw [hbs, hbe, hos, hoe]
    omega

theorem user_time_window_enforced_witness :
    ((300 : Nat) % 1440 < 480 ∨ (1260 : Nat) < 600 % 1440) ∧
      scheduleUser ⟨1, 0, 300, 600, URepeat.norepeat⟩ false true 1 [] =
        Except.error UserErr.timeWindow ∧
      (∀ b ∈ [(⟨1, 1, 0, 540, 600, Status.pending⟩ : Booking)],
        480 ≤ b.startTime % 1440 ∧ b.endTime % 1440 ≤ 1260) :=
  ⟨Or.inl (by decide),
    user_time_window_enforced.1 ⟨1, 0, 300, 600, URepeat.norepeat⟩ false true 1 []
      (Or.inl (by decide)),
    user_time_window_enforced.2 ⟨1, 0, 540, 600, URepeat.norepeat⟩ false false 1 [] _
      (by decide)⟩

theorem user_daily_run_example :
    scheduleUser ⟨1, 0, 540, 600, URepeat.daily 1⟩ true true 1 [] =
      Except.ok [⟨1, 1, 0, 540, 600, Status.approved⟩,
        ⟨2, 1, 1, 540, 600, Status.approved⟩] := by
  have h01 : dailyDates 0 1 = [0, 1] := by
    rw [dailyDates_eq_range']
    decide
  unfold scheduleUser
  dsimp only
  rw [if_neg (by decide), if_neg (by decide), h01]
  decide

/-- C1 (counterexample): a reachable store violating the invariant without
any status change.  A daily booking for days 0–1 stores its second row with
the first day's raw datetimes; the conflict query compares stored datetimes
against day-rebased probes, so a follow-up booking of the identical
09:00–10:00 slot on day 1 finds no conflict and is committed: two approved
reservations for room 1, day 1, 09:00–10:00 coexist. -/
theorem reachable_invariant_violation :
    ∃ store : List Booking, Reachable store ∧ ¬ invariant store := by
  refine ⟨[⟨1, 1, 0, 540, 600, Status.approved⟩, ⟨2, 1, 1, 540, 600, Status.approved⟩,
    ⟨3, 1, 1, 1980, 2040, Status.approved⟩], ?_, by decide⟩
  have h1 : Reachable ([] ++ [⟨1, 1, 0, 540, 600, Status.approved⟩,
      ⟨2, 1, 1, 540, 600, Status.approved⟩]) :=
    Reachable.user ⟨1, 0, 540, 600, URepeat.daily 1⟩ true true 1 [] _
      Reachable.empty user_daily_run_example
  exact Reachable.user ⟨1, 1, 1980, 2040, URepeat.norepeat⟩ true true 3
    ([] ++ [⟨1, 1, 0, 540, 600, Status.approved⟩, ⟨2, 1, 1, 540, 600, Status.approved⟩])
    [⟨3, 1, 1, 1980, 2040, Status.approved⟩] h1 (by decide)

/-- C1 (amended): deletion preserves the no-double-booking invariant, but
neither status update nor booking creation does: the status-update route
re-approves a rejected reservation into an occupied slot with no conflict
re-check; the user route's repeat rows keep the first day's raw datetimes,
which the conflict query never matches, so an identical later-day slot is
admitted on top of them; and the admin route's weekly branch with explicit
top-level times never checks the initial and same-day weekly occurrences
against each other.  So the invariant does not hold in every reachable
state. -/
theorem invariant_preservation_analysis :
    (∀ (id : Nat) (store : List Booking), invariant store →
        invariant (deleteBooking id store)) ∧
    (invariant [⟨1, 1, 0, 540, 600, Status.rejected⟩,
        ⟨2, 1, 0, 540, 600, Status.approved⟩] ∧
      updateStatus 1 Status.approved
        [⟨1, 1, 0, 540, 600, Status.rejected⟩, ⟨2, 1, 0, 540, 600, Status.approved⟩] =
        some [⟨1, 1, 0, 540, 600, Status.approved⟩,
          ⟨2, 1, 0, 540, 600, Status.approved⟩] ∧
      ¬ invariant [⟨1, 1, 0, 540, 600, Status.approved⟩,
        ⟨2, 1, 0, 540, 600, Status.approved⟩]) ∧
    (invariant [⟨1, 1, 0, 540, 600, Status.approved⟩,
        ⟨2, 1, 1, 540, 600, Status.approved⟩] ∧
      scheduleUser ⟨1, 1, 1980, 2040, URepeat.norepeat⟩ true true 3
        [⟨1, 1, 0, 540, 600, Status.approved⟩, ⟨2, 1, 1, 540, 600, Status.approved⟩] =
        Except.ok [⟨3, 1, 1, 1980, 2040, Status.approved⟩] ∧
      ¬ invariant ([⟨1, 1, 0, 540, 600, Status.approved⟩,
          ⟨2, 1, 1, 540, 600, Status.approved⟩] ++
        [⟨3, 1, 1, 1980, 2040, Status.approved⟩])) ∧
    (adminSchedule ⟨1, true, 1, some 1980, some 2040, Status.approved, ARepeat.weekly,
        some 2, some [(1, ⟨some 1980, some 2040, true⟩)]⟩ true 1 [] =
        Except.ok [⟨1, 1, 1, 1980, 2040, Status.approved⟩,
          ⟨2, 1, 1, 1980, 2040, Status.approved⟩] ∧
      ¬ invariant ([] ++ [⟨1, 1, 1, 1980, 2040, Status.approved⟩,
        ⟨2, 1, 1, 1980, 2040, Status.approved⟩])) := by
  refine ⟨?_, ⟨by decide, by decide, by decide⟩, ⟨by decide, by decide, by decide⟩, ?_⟩
  · intro id store hinv
    exact List.Pairwise.sublist (List.eraseP_sublist store) hinv
  · have hb12 : beforeDates 1 2 = [1] := by
      rw [beforeDates_eq_range']
      decide
    have hocc : adminBookingsToCreate ⟨1, true, 1, some 1980, some 2040, Status.approved,
        ARepeat.weekly, some 2, some [(1, ⟨some 1980, some 2040, true⟩)]⟩ =
        [⟨1, 1980, 2040⟩, ⟨1, 1980, 2040⟩] := by
      simp only [adminBookingsToCreate, hb12]
      decide
    refine ⟨?_, by decide⟩
    simp only [adminSchedule, hocc]
    decide

theorem invariant_preservation_analysis_witness :
    invariant [(⟨5, 2, 3, 4860, 4920, Status.approved⟩ : Booking)] ∧
      invariant (deleteBooking 5 [(⟨5, 2, 3, 4860, 4920, Status.approved⟩ : Booking)]) :=
  ⟨by decide, invariant_preservation_analysis.1 5 _ (by decide)⟩

theorem scheduleUser_error_of_conflict (req : UserRequest) (isAdmin hasAdmins : Bool)
    (freshId : Nat) (store : List Booking) (b : Booking)
    (hw : userTimeBad req.startTime req.endTime = false)
    (hse : req.startTime < req.endTime)
    (hfc : firstConflict req.room store (userOccs req) = some b) :
    ∃ er, scheduleUser req isAdmin hasAdmins freshId store = Except.error er ∧
      isConflictErr er = true := by
  unfold scheduleUser
  rw [hw]
  simp only [Bool.false_eq_true, if_false]
  rw [if_neg (show ¬ req.endTime ≤ req.startTime by omega)]
  rcases hrep : req.repeatType with _ | u | u <;>
    simp only [userOccs, hrep] at hfc
  · rw [firstConflict_singleton] at hfc
    simp only [hfc]
    exact ⟨UserErr.conflictGeneric, rfl, rfl⟩
  · simp only [hfc]
    exact ⟨UserErr.conflictOnDate b.date, rfl, rfl⟩
  · simp only [hfc]
    exact ⟨UserErr.conflictOnDate b.date, rfl, rfl⟩

/-- C2 (counterexample): the program does not always abort on an overlapping
non-rejected reservation.  A daily booking for days 0–1 stores its day-1 row
with the first day's raw datetimes; a later request for the identical
09:00–10:00 slot on day 1 overlaps that non-rejected row on the same room
and date, yet both `$or` clauses compare the stale stored datetimes against
day-1-rebased probes and are false, so the scan finds nothing and the batch
is committed — a double booking instead of a conflict error. -/
theorem stale_blocker_not_detected :
    scheduleUser ⟨1, 0, 540, 600, URepeat.daily 1⟩ true true 1 [] =
      Except.ok [⟨1, 1, 0, 540, 600, Status.approved⟩,
        ⟨2, 1, 1, 540, 600, Status.approved⟩] ∧
    (⟨1, 1980, 2040⟩ : Occ) ∈ userOccs ⟨1, 1, 1980, 2040, URepeat.norepeat⟩ ∧
    blocks 1 ⟨1, 1980, 2040⟩ ⟨2, 1, 1, 540, 600, Status.approved⟩ ∧
    scheduleUser ⟨1, 1, 1980, 2040, URepeat.norepeat⟩ true true 3
      [⟨1, 1, 0, 540, 600, Status.approved⟩, ⟨2, 1, 1, 540, 600, Status.approved⟩] =
      Except.ok [⟨3, 1, 1, 1980, 2040, Status.approved⟩] :=
  ⟨user_daily_run_example, by decide, by decide, by decide⟩

/-- C2 (amended): the abort-on-conflict guarantee holds for blockers whose
stored datetimes lie on their own date (every admin-created row; user rows
whose request datetimes were on the booking date): if any occurrence of a
validation-passing request overlaps such a non-rejected same-room same-date
reservation, scheduling fails with a conflict error and the store is
exactly as before the call, on the user path and the admin path alike.  (A
blocker written by a user-route repeat branch beyond its first day is never
matched and the batch commits.) -/
theorem conflict_aborts_whole_batch :
    (∀ (req : UserRequest) (isAdmin hasAdmins : Bool) (freshId : Nat)
        (store : List Booking),
        userTimeBad req.startTime req.endTime = false →
        req.startTime < req.endTime →
        (∃ o ∈ userOccs req, ∃ b ∈ store,
          datetimesOnDate b = true ∧ blocks req.room o b) →
        ∃ er, scheduleUser req isAdmin hasAdmins freshId store = Except.error er ∧
          isConflictErr er = true ∧
          applyUser req isAdmin hasAdmins freshId store = store) ∧
    (∀ (req : AdminRequest) (freshId : Nat) (store : List Booking),
        req.hasTitle = true → adminValidate req = none →
        adminHourCheck req = none → adminDailyCheck req = none →
        (∃ o ∈ adminBookingsToCreate req, ∃ b ∈ store,
          datetimesOnDate b = true ∧ blocks req.room o b) →
        ∃ er, adminSchedule req true freshId store = Except.error er ∧
          isAdminConflict er = true ∧ applyAdmin req true freshId store = store) := by
  constructor
  · intro req isAdmin hasAdmins freshId store hw hse hex
    obtain ⟨o, ho, b, hb, hc, hblk⟩ := hex
    have hne := firstConflict_isSome_of_blocks req.room store (userOccs req) o b
      ho hb hc hblk
    rcases hfc : firstConflict req.room store (userOccs req) with _ | b'
    · exact absurd hfc hne
    · obtain ⟨er, her, hcf⟩ :=
        scheduleUser_error_of_conflict req isAdmin hasAdmins freshId store b' hw hse hfc
      refine ⟨er, her, hcf, ?_⟩
      unfold applyUser
      rw [her]
  · intro req freshId store hT hval hhc hdc hex
    obtain ⟨o, ho, b, hb, hc, hblk⟩ := hex
    have hne := firstConflict_isSome_of_blocks req.room store
      (adminBookingsToCreate req) o b ho hb hc hblk
    rcases hfc : firstConflict req.room store (adminBookingsToCreate req) with _ | b'
    · exact absurd hfc hne
    · have hsched : adminSchedule req true freshId store =
          Except.error (AdminErr.conflictDetail b'.date b'.startTime b'.endTime) := by
        unfold adminSchedule
        rw [hT]
        simp only [Bool.not_true, Bool.false_eq_true, if_false, hval, hhc, hdc, hfc]
      refine ⟨AdminErr.conflictDetail b'.date b'.startTime b'.endTime, hsched, rfl, ?_⟩
      unfold applyAdmin
      rw [hsched]

theorem conflict_aborts_whole_batch_witness :
    (userTimeBad 540 600 = false ∧ (540 : Nat) < 600 ∧
      (∃ o ∈ userOccs ⟨1, 0, 540, 600, URepeat.daily 4⟩,
        ∃ b ∈ [(⟨7, 1, 2, 3420, 3480, Status.approved⟩ : Booking)],
          datetimesOnDate b = true ∧ blocks 1 o b) ∧
      (∃ er, scheduleUser ⟨1, 0, 540, 600, URepeat.daily 4⟩ false true 9
          [⟨7, 1, 2, 3420, 3480, Status.approved⟩] = Except.error er ∧
        isConflictErr er = true ∧
        applyUser ⟨1, 0, 540, 600, URepeat.daily 4⟩ false true 9
          [⟨7, 1, 2, 3420, 3480, Status.approved⟩] =
          [⟨7, 1, 2, 3420, 3480, Status.approved⟩])) ∧
    (∃ er, adminSchedule ⟨1, true, 0, some 540, some 600, Status.approved,
        ARepeat.norepeat, none, none⟩ true 9
        [⟨7, 1, 0, 555, 615, Status.approved⟩] = Except.error er ∧
      isAdminConflict er = true ∧
      applyAdmin ⟨1, true, 0, some 540, some 600, Status.approved,
        ARepeat.norepeat, none, none⟩ true 9
        [⟨7, 1, 0, 555, 615, Status.approved⟩] = [⟨7, 1, 0, 555, 615, Status.approved⟩]) := by
  have hex : ∃ o ∈ userOccs ⟨1, 0, 540, 600, URepeat.daily 4⟩,
      ∃ b ∈ [(⟨7, 1, 2, 3420, 3480, Status.approved⟩ : Booking)],
        datetimesOnDate b = true ∧ blocks 1 o b := by
    refine ⟨⟨2, 540, 600⟩, ?_, ⟨7, 1, 2, 3420, 3480, Status.approved⟩,
      by decide, by decide, by decide⟩
    simp [userOccs, dailyDates_eq_range']
  refine ⟨⟨by decide, by decide, hex, ?_⟩, ?_⟩
  · exact conflict_aborts_whole_batch.1 ⟨1, 0, 540, 600, URepeat.daily 4⟩ false true 9
      [⟨7, 1, 2, 3420, 3480, Status.approved⟩] (by decide) (by decide) hex
  · exact conflict_aborts_whole_batch.2 ⟨1, true, 0, some 540, some 600, Status.approved,
      ARepeat.norepeat, none, none⟩ 9 [⟨7, 1, 0, 555, 615, Status.approved⟩]
      rfl (by decide) (by decide) (by decide)
      ⟨⟨0, 540, 600⟩, by decide, ⟨7, 1, 0, 555, 615, Status.approved⟩,
        by decide, by decide, by decide⟩

/-- C4 (counterexample): for the admin route's daily repeat from day 0 until
day 4 — the spec's 2024-01-01 … 2024-01-05 example — `bookingsToCreate`
holds 4 occurrences, not the claimed (until − date) + 1 = 5: the repeat end
date itself is never booked on the admin path. -/
theorem admin_daily_excludes_end_date :
    (adminBookingsToCreate ⟨1, true, 0, some 540, some 600, Status.approved,
        ARepeat.daily, some 4, none⟩).length = 4 ∧ (4 : Nat) ≠ 4 + 1 := by
  refine ⟨?_, by decide⟩
  simp [adminBookingsToCreate, beforeDates_eq_range']

/-- C4 (amended): the user route's daily expansion covers every day of
`[date, until]` inclusive, `(until − date) + 1` occurrences in ascending
date order; the admin route books the request date plus the days strictly
between the request date and the repeat end date, so the end date is
excluded and the count is `1 + (until − (date + 1))`. -/
theorem daily_expansion_counts (room d u s e : Nat) :
    (userOccs ⟨room, d, s, e, URepeat.daily u⟩).map Occ.date =
      List.range' d (u + 1 - d) ∧
    (userOccs ⟨room, d, s, e, URepeat.daily u⟩).length = u + 1 - d ∧
    (adminBookingsToCreate ⟨room, true, d, some s, some e, Status.approved,
        ARepeat.daily, some u, none⟩).map Occ.date =
      d :: List.range' (d + 1) (u - (d + 1)) ∧
    (adminBookingsToCreate ⟨room, true, d, some s, some e, Status.approved,
        ARepeat.daily, some u, none⟩).length = 1 + (u - (d + 1)) := by
  refine ⟨?_, ?_, ?_, ?_⟩
  · simp [userOccs, dailyDates_eq_range', map_date_mkOcc]
  · simp [userOccs, dailyDates_eq_range']
  · simp [adminBookingsToCreate, beforeDates_eq_range', map_date_mkOcc]
  · simp [adminBookingsToCreate, beforeDates_eq_range']
    omega

theorem firstInvalidEnabled_eq_none_of_no_enabled (sched : List (Nat × DayWindow))
    (h : sched.any (fun p => p.2.enabled) = false) :
    firstInvalidEnabled sched = none := by
  induction sched with
  | nil => rfl
  | cons p rest ih =>
    simp only [List.any_cons, Bool.or_eq_false_iff] at h
    simp only [firstInvalidEnabled, h.1, Bool.false_and, Bool.false_eq_true, if_false]
    exact ih h.2

/-- C5 (counterexample): a weekly-schedule request on day 1 (a Monday) with
repeat end date equal to day 1 and Monday enabled with a valid 09:00–10:00
window creates no occurrence at all — the end day of `[date, until]` is
never reached, refuting the claimed inclusive iteration. -/
theorem admin_weekly_skips_end_date :
    adminBookingsToCreate ⟨1, true, 1, none, none, Status.approved,
        ARepeat.weekly, some 1, some [(1, ⟨some 540, some 600, true⟩)]⟩ = [] ∧
    List.lookup (1 % 7) [(1, (⟨some 540, some 600, true⟩ : DayWindow))] =
      some ⟨some 540, some 600, true⟩ ∧ (1 : Nat) ≤ 1 := by
  refine ⟨?_, by decide, by decide⟩
  simp [adminBookingsToCreate, beforeDates_eq_range']

/-- C5 (amended): the admin weekly-schedule expansion iterates the days of
`[date, until)` — the repeat end date excluded — and emits an occurrence
exactly for the days whose weekday has an enabled entry with both window
times present, carrying that weekday's window rebased onto the day; an
enabled weekday with a missing window time is skipped without error; and a
schedule with no enabled weekday fails with the no-enabled-day validation
error. -/
theorem weekly_schedule_expansion (room d u : Nat) (sched : List (Nat × DayWindow))
    (st : Status) :
    (adminBookingsToCreate ⟨room, true, d, none, none, st,
        ARepeat.weekly, some u, some sched⟩ =
      (List.range' d (u - d)).filterMap (weeklyOcc sched)) ∧
    (∀ day w, sched.lookup (day % 7) = some w → w.enabled = true →
        w.startTime = none ∨ w.endTime = none → weeklyOcc sched day = none) ∧
    (∀ day w s e, sched.lookup (day % 7) = some w → w.enabled = true →
        w.startTime = some s → w.endTime = some e →
        weeklyOcc sched day = some ⟨day, rebase day s, rebase day e⟩) ∧
    (sched.any (fun p => p.2.enabled) = false →
      ∀ (roomExists : Bool) (freshId : Nat) (store : List Booking),
        adminSchedule ⟨room, true, d, none, none, st, ARepeat.weekly, some u,
          some sched⟩ roomExists freshId store = Except.error AdminErr.noEnabledDay) := by
  refine ⟨?_, ?_, ?_, ?_⟩
  · simp [adminBookingsToCreate, beforeDates_eq_range']
  · intro day w hl he hmiss
    simp only [weeklyOcc, hl, he, if_true]
    rcases hmiss with hs | hs
    · rw [hs]
    · rw [hs]
      cases w.startTime <;> rfl
  · intro day w s e hl he hs he2
    simp only [weeklyOcc, hl, he, if_true, hs, he2]
  · intro hnone roomExists freshId store
    have hval : adminValidate ⟨room, true, d, none, none, st, ARepeat.weekly, some u,
        some sched⟩ = some AdminErr.noEnabledDay := by
      simp only [adminValidate]
      rw [if_neg (by simp)]
      simp only [firstInvalidEnabled_eq_none_of_no_enabled sched hnone, hnone,
        Bool.false_eq_true, if_false]
    simp only [adminSchedule, hval, Bool.not_true, Bool.false_eq_true, if_false]

theorem weekly_schedule_expansion_witness :
    (List.lookup (3 % 7) [(3, (⟨some 540, none, true⟩ : DayWindow))] =
        some ⟨some 540, none, true⟩ ∧
      weeklyOcc [(3, ⟨some 540, none, true⟩)] 3 = none) ∧
    (List.lookup (2 % 7) [(2, (⟨some 540, some 600, true⟩ : DayWindow))] =
        some ⟨some 540, some 600, true⟩ ∧
      weeklyOcc [(2, ⟨some 540, some 600, true⟩)] 2 =
        some ⟨2, rebase 2 540, rebase 2 600⟩) ∧
    (List.any [(4, (⟨some 540, some 600, false⟩ : DayWindow))] (fun p => p.2.enabled)
        = false ∧
      adminSchedule ⟨1, true, 0, none, none, Status.approved, ARepeat.weekly, some 9,
        some [(4, ⟨some 540, some 600, false⟩)]⟩ true 1 [] =
          Except.error AdminErr.noEnabledDay) :=
  ⟨⟨by decide,
      (weekly_schedule_expansion 1 0 9 [(3, ⟨some 540, none, true⟩)]
        Status.approved).2.1 3 ⟨some 540, none, true⟩ (by decide) rfl (Or.inr rfl)⟩,
    ⟨by decide,
      (weekly_schedule_expansion 1 0 9 [(2, ⟨some 540, some 600, true⟩)]
        Status.approved).2.2.1 2 ⟨some 540, some 600, true⟩ 540 600 (by decide) rfl
        rfl rfl⟩,
    ⟨by decide,
      (weekly_schedule_expansion 1 0 9 [(4, ⟨some 540, some 600, false⟩)]
        Status.approved).2.2.2 (by decide) true 1 []⟩⟩

/-- C6 (counterexample): the admin route rejects the 09:00–09:30 window
(minutes 540–570) with its hour-granularity check even though
`startTime < endTime`, refuting "every window with startTime strictly
before endTime passes this validation". -/
theorem admin_rejects_subhour_window :
    adminSchedule ⟨1, true, 0, some 540, some 570, Status.approved, ARepeat.norepeat,
        none, none⟩ true 1 [] = Except.error AdminErr.invalidWindowHour ∧
    (540 : Nat) < 570 := by
  constructor
  · rfl
  · decide

/-- C6 (amended): on the user path (given the 8:00–21:00 gate passes) the
invalid-window rejection happens exactly when `endTime ≤ startTime`; on the
admin path a request with `endTime ≤ startTime` is rejected, but so is any
request whose end *hour* is at most its start hour — the comparison is by
clock hour, so sub-hour windows inside one clock hour are rejected despite
`startTime < endTime` — and an enabled weekly window failing the hour check
is rejected naming its weekday. -/
theorem invalid_window_validation (s e room d freshId : Nat) (store : List Booking)
    (isAdmin hasAdmins : Bool) (rep : URepeat)
    (hw : userTimeBad s e = false) :
    (scheduleUser ⟨room, d, s, e, rep⟩ isAdmin hasAdmins freshId store =
        Except.error UserErr.endNotAfterStart ↔ e ≤ s) ∧
    (e ≤ s → adminSchedule ⟨room, true, d, some s, some e, Status.approved,
        ARepeat.norepeat, none, none⟩ true freshId store =
        Except.error AdminErr.endNotAfterStart) ∧
    (s < e → e % 1440 / 60 ≤ s % 1440 / 60 →
      adminSchedule ⟨room, true, d, some s, some e, Status.approved,
        ARepeat.norepeat, none, none⟩ true freshId store =
        Except.error AdminErr.invalidWindowHour) ∧
    (∀ (sched : List (Nat × DayWindow)) (uu day : Nat),
        firstInvalidEnabled sched = some day →
        adminSchedule ⟨room, true, d, none, none, Status.approved, ARepeat.weekly,
          some uu, some sched⟩ true freshId store =
          Except.error (AdminErr.invalidWindowFor day)) := by
  refine ⟨⟨?_, ?_⟩, ?_, ?_, ?_⟩
  · intro h
    unfold scheduleUser at h
    split at h
    · simp at h
    · split at h
      · rename_i hse
        simpa using hse
      · split at h <;> split at h <;>
          first
          | exact absurd (finalizeUser_error _ _ _ _ h) (by decide)
          | simp at h
  · intro hse
    unfold scheduleUser
    rw [show userTimeBad (⟨room, d, s, e, rep⟩ : UserRequest).startTime
        (⟨room, d, s, e, rep⟩ : UserRequest).endTime = false from hw]
    simp only [Bool.false_eq_true, if_false]
    rw [if_pos (by simpa using hse)]
  · intro hse
    have hval : adminValidate ⟨room, true, d, some s, some e, Status.approved,
        ARepeat.norepeat, none, none⟩ = some AdminErr.endNotAfterStart := by
      simp only [adminValidate]
      rw [if_pos (by decide)]
      simp only [if_pos hse]
    simp only [adminSchedule, hval, Bool.not_true, Bool.false_eq_true, if_false]
  · intro hlt hhour
    have hval : adminValidate ⟨room, true, d, some s, some e, Status.approved,
        ARepeat.norepeat, none, none⟩ = none := by
      simp only [adminValidate]
      rw [if_pos (by decide)]
      simp only [if_neg (by omega : ¬ e ≤ s)]
    have hhc : adminHourCheck ⟨room, true, d, some s, some e, Status.approved,
        ARepeat.norepeat, none, none⟩ = some AdminErr.invalidWindowHour := by
      simp only [adminHourCheck]
      rw [if_pos hhour]
    simp only [adminSchedule, hval, hhc, Bool.not_true, Bool.false_eq_true, if_false,
      Bool.not_false, if_true]
  · intro sched uu day hinv
    have hval : adminValidate ⟨room, true, d, none, none, Status.approved,
        ARepeat.weekly, some uu, some sched⟩ = some (AdminErr.invalidWindowFor day) := by
      simp only [adminValidate]
      rw [if_neg (by simp)]
      simp only [hinv]
    simp only [adminSchedule, hval, Bool.not_true, Bool.false_eq_true, if_false]

theorem invalid_window_validation_witness :
    (userTimeBad 600 540 = false ∧
      (scheduleUser ⟨1, 0, 600, 540, URepeat.norepeat⟩ false true 1 [] =
          Except.error UserErr.endNotAfterStart ↔ (540 : Nat) ≤ 600)) ∧
    ((540 : Nat) ≤ 600 ∧
      adminSchedule ⟨1, true, 0, some 600, some 540, Status.approved, ARepeat.norepeat,
        none, none⟩ true 1 [] = Except.error AdminErr.endNotAfterStart) ∧
    ((540 : Nat) < 570 ∧ 570 % 1440 / 60 ≤ 540 % 1440 / 60 ∧
      adminSchedule ⟨1, true, 0, some 540, some 570, Status.approved, ARepeat.norepeat,
        none, none⟩ true 2 [] = Except.error AdminErr.invalidWindowHour) ∧
    (firstInvalidEnabled [(2, ⟨some 600, some 540, true⟩)] = some 2 ∧
      adminSchedule ⟨1, true, 0, none, none, Status.approved, ARepeat.weekly, some 9,
        some [(2, ⟨some 600, some 540, true⟩)]⟩ true 1 [] =
          Except.error (AdminErr.invalidWindowFor 2)) :=
  ⟨⟨by decide, (invalid_window_validation 600 540 1 0 1 [] false true URepeat.norepeat
      (by decide)).1⟩,
    ⟨by decide, (invalid_window_validation 600 540 1 0 1 [] false true URepeat.norepeat
      (by decide)).2.1 (by decide)⟩,
    ⟨by decide, by decide, (invalid_window_validation 540 570 1 0 2 [] false true
      URepeat.norepeat (by decide)).2.2.1 (by decide) (by decide)⟩,
    ⟨by decide, (invalid_window_validation 540 570 1 0 1 [] false true URepeat.norepeat
      (by decide)).2.2.2 [(2, ⟨some 600, some 540, true⟩)] 9 2 (by decide)⟩⟩

theorem rebase_rebase (d t : Nat) : rebase d (rebase d t) = rebase d t := by
  unfold rebase
  omega

/-- C7 (counterexample): a user-route daily request on day 1 with repeat end
date day 0 (strictly before the request date) does not fail with any
InvalidRange error: for an admin requester it is reported as a success with
zero bookings created, and for a non-admin requester (status `pending`,
with an admin user present) the empty notification loop crashes and the
route answers 500 — still not an InvalidRange error, and still zero
bookings. -/
theorem until_before_date_reports_success :
    scheduleUser ⟨1, 1, 1980, 2040, URepeat.daily 0⟩ true true 1 [] =
      Except.ok [] ∧
    scheduleUser ⟨1, 1, 1980, 2040, URepeat.daily 0⟩ false true 1 [] =
      Except.error UserErr.notificationCrash ∧
    (0 : Nat) < 1 := by
  have h10 : dailyDates 1 0 = [] := by
    rw [dailyDates_eq_range']
    decide
  refine ⟨?_, ?_, by decide⟩
  · unfold scheduleUser
    dsimp only
    rw [if_neg (by decide), if_neg (by decide), h10]
    decide
  · unfold scheduleUser
    dsimp only
    rw [if_neg (by decide), if_neg (by decide), h10]
    decide

/-- C7 (amended): for a daily request whose repeat end date is strictly
before the request date, no range-validation error is produced and zero
reservations are created: an admin requester gets a success response with
an empty list, while a non-admin requester (status `pending`, an admin
user present) gets the 500 from the empty notification loop; the admin
route succeeds, creating only the initial occurrence at the request date. -/
theorem until_before_date_behavior (room d u s e freshId : Nat)
    (store : List Booking) (hasAdmins : Bool)
    (hu : u < d) (hw : userTimeBad s e = false) (hse : s < e)
    (hnc : store.find? (conflictsWith room d (rebase d s) (rebase d e)) = none)
    (hh : s % 1440 / 60 < e % 1440 / 60) :
    scheduleUser ⟨room, d, s, e, URepeat.daily u⟩ true hasAdmins freshId store =
      Except.ok [] ∧
    scheduleUser ⟨room, d, s, e, URepeat.daily u⟩ false true freshId store =
      Except.error UserErr.notificationCrash ∧
    adminSchedule ⟨room, true, d, some s, some e, Status.approved, ARepeat.daily,
        some u, none⟩ true freshId store =
      Except.ok (createFromOccs room Status.approved freshId
        [⟨d, rebase d s, rebase d e⟩]) := by
  have hdd : dailyDates d u = [] := by
    unfold dailyDates
    exact stepDates_eq_nil 0 d u (by omega)
  refine ⟨?_, ?_, ?_⟩
  · unfold scheduleUser
    simp only [hw, Bool.false_eq_true, if_false]
    rw [if_neg (by simp only []; omega : ¬ (⟨room, d, s, e, URepeat.daily u⟩ :
      UserRequest).endTime ≤ (⟨room, d, s, e, URepeat.daily u⟩ : UserRequest).startTime)]
    rw [hdd]
    rfl
  · unfold scheduleUser
    simp only [hw, Bool.false_eq_true, if_false]
    rw [if_neg (by simp only []; omega : ¬ (⟨room, d, s, e, URepeat.daily u⟩ :
      UserRequest).endTime ≤ (⟨room, d, s, e, URepeat.daily u⟩ : UserRequest).startTime)]
    rw [hdd]
    rfl
  · have hval : adminValidate ⟨room, true, d, some s, some e, Status.approved,
        ARepeat.daily, some u, none⟩ = none := by
      simp only [adminValidate]
      rw [if_pos (by decide)]
      simp only [if_neg (by omega : ¬ e ≤ s)]
    have hhc : adminHourCheck ⟨room, true, d, some s, some e, Status.approved,
        ARepeat.daily, some u, none⟩ = none := by
      simp only [adminHourCheck]
      rw [if_neg (by omega : ¬ e % 1440 / 60 ≤ s % 1440 / 60)]
    have hdc : adminDailyCheck ⟨room, true, d, some s, some e, Status.approved,
        ARepeat.daily, some u, none⟩ = none := by
      simp only [adminDailyCheck]
      rw [if_pos (by decide)]
      simp only [if_neg (by omega : ¬ e % 1440 / 60 ≤ s % 1440 / 60)]
    have hocc : adminBookingsToCreate ⟨room, true, d, some s, some e, Status.approved,
        ARepeat.daily, some u, none⟩ = [⟨d, rebase d s, rebase d e⟩] := by
      simp only [adminBookingsToCreate, beforeDates_eq_range',
        show u - (d + 1) = 0 from by omega, List.range'_zero, List.map_nil]
      rw [if_pos (by decide)]
      simp
    have hfc : firstConflict room store [(⟨d, rebase d s, rebase d e⟩ : Occ)] = none := by
      rw [firstConflict_singleton]
      simp only [rebase_rebase]
      exact hnc
    simp only [adminSchedule, hval, hhc, hdc, hocc, hfc, Bool.not_true,
      Bool.false_eq_true, if_false, Bool.not_false, if_true]

theorem until_before_date_behavior_witness :
    ((0 : Nat) < 1 ∧ userTimeBad 1980 2040 = false ∧ (1980 : Nat) < 2040 ∧
      List.find? (conflictsWith 1 1 (rebase 1 1980) (rebase 1 2040)) [] = none ∧
      1980 % 1440 / 60 < 2040 % 1440 / 60) ∧
    (scheduleUser ⟨1, 1, 1980, 2040, URepeat.daily 0⟩ true false 1 [] =
        Except.ok [] ∧
      scheduleUser ⟨1, 1, 1980, 2040, URepeat.daily 0⟩ false true 1 [] =
        Except.error UserErr.notificationCrash ∧
      adminSchedule ⟨1, true, 1, some 1980, some 2040, Status.approved, ARepeat.daily,
        some 0, none⟩ true 1 [] =
        Except.ok (createFromOccs 1 Status.approved 1 [⟨1, rebase 1 1980, rebase 1 2040⟩])) :=
  ⟨⟨by decide, by decide, by decide, by decide, by decide⟩,
    until_before_date_behavior 1 1 0 1980 2040 1 [] false (by decide) (by decide)
      (by decide) (by decide) (by decide)⟩

theorem scheduleUser_daily_empty (room d u s e freshId : Nat) (isAdmin hasAdmins : Bool)
    (hw : userTimeBad s e = false) (hse : s < e) :
    scheduleUser ⟨room, d, s, e, URepeat.daily u⟩ isAdmin hasAdmins freshId [] =
      finalizeUser (userStatus isAdmin) hasAdmins
        (createFromOccs room (userStatus isAdmin) freshId
          ((dailyDates d u).map fun x => ⟨x, s, e⟩)) := by
  unfold scheduleUser
  simp only [hw, Bool.false_eq_true, if_false]
  rw [if_neg (by simp only []; omega : ¬ (⟨room, d, s, e, URepeat.daily u⟩ :
    UserRequest).endTime ≤ (⟨room, d, s, e, URepeat.daily u⟩ : UserRequest).startTime)]
  rw [firstConflict_nil_store]

/-- C8 (counterexample): a daily request repeating for 3000 days — far
beyond any two-year horizon — expands fully and succeeds against an empty
store; no range-cap error exists in the code. -/
theorem no_cap_huge_range_succeeds :
    scheduleUser ⟨1, 0, 540, 600, URepeat.daily 3000⟩ false true 1 [] =
      Except.ok (createFromOccs 1 (userStatus false) 1
        ((dailyDates 0 3000).map fun x => ⟨x, 540, 600⟩)) ∧
    (userOccs ⟨1, 0, 540, 600, URepeat.daily 3000⟩).length = 3001 ∧
    (730 : Nat) < 3000 := by
  refine ⟨?_, ?_, by decide⟩
  · rw [scheduleUser_daily_empty 1 0 3000 540 600 1 false true (by decide) (by decide)]
    have hcons : dailyDates 0 3000 = 0 :: stepDates 0 1 3000 :=
      stepDates_eq_cons 0 0 3000 (by decide)
    rw [hcons, List.map_cons]
    simp only [createFromOccs]
    exact finalizeUser_cons _ _ _ _
  · simp [userOccs, dailyDates_eq_range']

/-- C8 (amended): expansion is unbounded: for every repeat end date on or
after the request date, however far out, the daily expansion covers the
whole range (one occurrence per day, `until + 1 − date` of them) and
scheduling against an empty store succeeds — there is no horizon cap and no
range-too-large error. -/
theorem no_horizon_cap (room d u s e freshId : Nat) (isAdmin hasAdmins : Bool)
    (hdu : d ≤ u) (hw : userTimeBad s e = false) (hse : s < e) :
    scheduleUser ⟨room, d, s, e, URepeat.daily u⟩ isAdmin hasAdmins freshId [] =
      Except.ok (createFromOccs room (userStatus isAdmin) freshId
        (userOccs ⟨room, d, s, e, URepeat.daily u⟩)) ∧
    (userOccs ⟨room, d, s, e, URepeat.daily u⟩).length = u + 1 - d := by
  constructor
  · rw [scheduleUser_daily_empty room d u s e freshId isAdmin hasAdmins hw hse]
    simp only [userOccs]
    have hcons : dailyDates d u = d :: stepDates 0 (d + 0 + 1) u :=
      stepDates_eq_cons 0 d u hdu
    rw [hcons, List.map_cons]
    simp only [createFromOccs]
    exact finalizeUser_cons _ _ _ _
  · simp [userOccs, dailyDates_eq_range']

theorem no_horizon_cap_witness :
    ((0 : Nat) ≤ 4000 ∧ userTimeBad 540 600 = false ∧ (540 : Nat) < 600) ∧
    (scheduleUser ⟨1, 0, 540, 600, URepeat.daily 4000⟩ false true 1 [] =
      Except.ok (createFromOccs 1 (userStatus false) 1
        (userOccs ⟨1, 0, 540, 600, URepeat.daily 4000⟩)) ∧
    (userOccs ⟨1, 0, 540, 600, URepeat.daily 4000⟩).length = 4000 + 1 - 0) :=
  ⟨⟨by decide, by decide, by decide⟩,
    no_horizon_cap 1 0 4000 540 600 1 false true (by decide) (by decide) (by decide)⟩

theorem adminValidate_not_conflict (req : AdminRequest) (er : AdminErr)
    (h : adminValidate req = some er) : isAdminConflict er = false := by
  unfold adminValidate at h
  split at h
  · split at h
    · split at h
      · injection h with h
        subst h
        rfl
      · cases h
    · injection h with h
      subst h
      rfl
  · split at h
    · injection h with h
      subst h
      rfl
    · split at h
      · injection h with h
        subst h
        rfl
      · split at h
        · cases h
        · injection h with h
          subst h
          rfl

theorem adminHourCheck_not_conflict (req : AdminRequest) (er : AdminErr)
    (h : adminHourCheck req = some er) : isAdminConflict er = false := by
  unfold adminHourCheck at h
  split at h
  · split at h
    · injection h with h
      subst h
      rfl
    · cases h
  · cases h

theorem adminDailyCheck_not_conflict (req : AdminRequest) (er : AdminErr)
    (h : adminDailyCheck req = some er) : isAdminConflict er = false := by
  unfold adminDailyCheck at h
  split at h
  · split at h
    · split at h
      · split at h
        · injection h with h
          subst h
          rfl
        · cases h
      · cases h
    · cases h
  · cases h

/-- C9 (counterexample): a single-occurrence user booking that hits an
existing approved reservation is rejected with the generic message `This
time slot conflicts with an existing booking`, which names neither the date
nor the time range of the blocker. -/
theorem single_conflict_message_has_no_detail :
    scheduleUser ⟨1, 0, 540, 600, URepeat.norepeat⟩ false true 2
        [⟨1, 1, 0, 540, 600, Status.approved⟩] = Except.error UserErr.conflictGeneric ∧
    userErrNamesDate UserErr.conflictGeneric = false ∧
    userErrNamesTimes UserErr.conflictGeneric = false := by
  refine ⟨?_, rfl, rfl⟩
  rfl

/-- C9 (amended): only the admin route's conflict rejection carries the
blocking reservation's date and time range; the user route's recurring
branches name only the blocker's date, and its single-occurrence branch
names neither date nor times. -/
theorem conflict_error_payloads :
    (∀ (req : AdminRequest) (roomExists : Bool) (freshId : Nat) (store : List Booking)
        (er : AdminErr),
        adminSchedule req roomExists freshId store = Except.error er →
        isAdminConflict er = true →
        ∃ b ∈ store, er = AdminErr.conflictDetail b.date b.startTime b.endTime) ∧
    (∀ (req : UserRequest) (isAdmin hasAdmins : Bool) (freshId : Nat)
        (store : List Booking) (er : UserErr),
        scheduleUser req isAdmin hasAdmins freshId store = Except.error er →
        isConflictErr er = true →
        userErrNamesTimes er = false ∧
        (req.repeatType = URepeat.norepeat →
          er = UserErr.conflictGeneric ∧ userErrNamesDate er = false) ∧
        (∀ u, req.repeatType = URepeat.daily u ∨ req.repeatType = URepeat.weekly u →
          ∃ b ∈ store, er = UserErr.conflictOnDate b.date)) := by
  constructor
  · intro req roomExists freshId store er h hconf
    unfold adminSchedule at h
    split at h
    · injection h with h
      subst h
      cases hconf
    · split at h
      · rename_i er1 hval
        injection h with h
        subst h
        rw [adminValidate_not_conflict req er1 hval] at hconf
        cases hconf
      · split at h
        · injection h with h
          subst h
          cases hconf
        · split at h
          · rename_i er1 hhc
            injection h with h
            subst h
            rw [adminHourCheck_not_conflict req er1 hhc] at hconf
            cases hconf
          · split at h
            · rename_i er1 hdc
              injection h with h
              subst h
              rw [adminDailyCheck_not_conflict req er1 hdc] at hconf
              cases hconf
            · split at h
              · rename_i b hfc
                injection h with h
                subst h
                exact ⟨b, firstConflict_some_mem req.room store
                  (adminBookingsToCreate req) b hfc, rfl⟩
              · simp at h
  · intro req isAdmin hasAdmins freshId store er h hconf
    unfold scheduleUser at h
    split at h
    · injection h with h
      subst h
      cases hconf
    · split at h
      · injection h with h
        subst h
        cases hconf
      · split at h
        · rename_i hrep
          split at h
          · injection h with h
            subst h
            refine ⟨rfl, fun _ => ⟨rfl, rfl⟩, ?_⟩
            intro u hu
            rcases hu with hu | hu <;> rw [hrep] at hu <;> cases hu
          · have her := finalizeUser_error _ _ _ _ h
            subst her
            cases hconf
        · rename_i u hrep
          split at h
          · rename_i b hfc
            injection h with h
            subst h
            refine ⟨rfl, ?_, ?_⟩
            · intro hr
              rw [hrep] at hr
              cases hr
            · intro u2 _
              exact ⟨b, firstConflict_some_mem req.room store _ b hfc, rfl⟩
          · have her := finalizeUser_error _ _ _ _ h
            subst her
            cases hconf
        · rename_i u hrep
          split at h
          · rename_i b hfc
            injection h with h
            subst h
            refine ⟨rfl, ?_, ?_⟩
            · intro hr
              rw [hrep] at hr
              cases hr
            · intro u2 _
              exact ⟨b, firstConflict_some_mem req.room store _ b hfc, rfl⟩
          · have her := finalizeUser_error _ _ _ _ h
            subst her
            cases hconf

theorem conflict_error_payloads_witness :
    (adminSchedule ⟨1, true, 0, some 540, some 600, Status.approved, ARepeat.norepeat,
        none, none⟩ true 9 [⟨7, 1, 0, 555, 615, Status.pending⟩] =
      Except.error (AdminErr.conflictDetail 0 555 615) ∧
      isAdminConflict (AdminErr.conflictDetail 0 555 615) = true ∧
      (∃ b ∈ [(⟨7, 1, 0, 555, 615, Status.pending⟩ : Booking)],
        AdminErr.conflictDetail 0 555 615 =
          AdminErr.conflictDetail b.date b.startTime b.endTime)) ∧
    (scheduleUser ⟨1, 0, 540, 600, URepeat.norepeat⟩ false true 9
        [⟨7, 1, 0, 555, 615, Status.pending⟩] = Except.error UserErr.conflictGeneric ∧
      userErrNamesTimes UserErr.conflictGeneric = false) :=
  ⟨⟨by decide, by decide,
      conflict_error_payloads.1 ⟨1, true, 0, some 540, some 600, Status.approved,
        ARepeat.norepeat, none, none⟩ true 9 [⟨7, 1, 0, 555, 615, Status.pending⟩]
        (AdminErr.conflictDetail 0 555 615) (by decide) (by decide)⟩,
    ⟨by decide,
      (conflict_error_payloads.2 ⟨1, 0, 540, 600, URepeat.norepeat⟩ false true 9
        [⟨7, 1, 0, 555, 615, Status.pending⟩] UserErr.conflictGeneric (by decide)
        (by decide)).1⟩⟩
